import Mathlib

/-!
# Verification of the metric-rs planar-geometry calculus

A shallow embedding of the calculation layer of the `metric-rs` repository:
points, lines and circles over the reals, with the library's tolerance-based
equality predicates, constructors, metric functions, intersection engine,
construction operators, transforms, and triangle-center formulas, translated
definition-by-definition from `src/objects.rs` and `src/calc/*`.

Machine `f64` values are modelled as real numbers; `f64` comparisons
(`==`, `<`) become the corresponding exact comparisons on `ℝ`, and the
library's `EPSILON`-based approximate equality is carried over literally.
-/

namespace MetricRs

noncomputable section

/-- `EPSILON` from `calc/constants.rs`. -/
def EPSILON : ℝ := 1e-10

/-- `Point` from `objects.rs`: a pair of coordinates. -/
structure Point where
  x : ℝ
  y : ℝ

/-- `Line` from `objects.rs`: coefficients of `a*x + b*y + c = 0`. -/
structure Line where
  a : ℝ
  b : ℝ
  c : ℝ

/-- `Circle` from `objects.rs`: center and radius. -/
structure Circle where
  O : Point
  r : ℝ

/-- `CalcException` from `calc/exception.rs`. -/
inductive CalcException where
  | OverlappingPoint
  | NonpositiveRadius
  | CollinearPoints
  | NoIntersection
  | ZeroCoefficient
  | Infinity
deriving DecidableEq

/-- `Result<T>` from `calc/exception.rs`. -/
abbrev Result (α : Type) := Except CalcException α

/-- Vector addition on `Point` (`impl Add for Point`). -/
instance : Add Point := ⟨fun P Q => ⟨P.x + Q.x, P.y + Q.y⟩⟩

/-- Vector subtraction on `Point` (`impl Sub for Point`). -/
instance : Sub Point := ⟨fun P Q => ⟨P.x - Q.x, P.y - Q.y⟩⟩

/-- Scalar multiplication on `Point` (`impl Mul<f64> for Point`). -/
instance : HMul Point ℝ Point := ⟨fun P t => ⟨P.x * t, P.y * t⟩⟩

/-- Scalar division on `Point` (`impl Div<f64> for Point`). -/
instance : HDiv Point ℝ Point := ⟨fun P t => ⟨P.x / t, P.y / t⟩⟩

theorem Point.add_def (P Q : Point) : P + Q = ⟨P.x + Q.x, P.y + Q.y⟩ := rfl

theorem Point.sub_def (P Q : Point) : P - Q = ⟨P.x - Q.x, P.y - Q.y⟩ := rfl

theorem Point.mul_def (P : Point) (t : ℝ) : P * t = ⟨P.x * t, P.y * t⟩ := rfl

theorem Point.div_def (P : Point) (t : ℝ) : P / t = ⟨P.x / t, P.y / t⟩ := rfl

/-- `aprx_eq` from `calc/basic.rs`: tolerance comparison of two floats. -/
def aprx_eq (a b : ℝ) : Prop := |a - b| < EPSILON

instance (a b : ℝ) : Decidable (aprx_eq a b) := by unfold aprx_eq; infer_instance

/-- `is_parallel` from `calc/basic.rs`. -/
def is_parallel (l k : Line) : Prop := aprx_eq (l.a * k.b) (l.b * k.a)

instance (l k : Line) : Decidable (is_parallel l k) := by
  unfold is_parallel; infer_instance

/-- `PartialEq for Point` from `calc/basic.rs`: tolerance equality. -/
def Point.eqTol (P Q : Point) : Prop := aprx_eq P.x Q.x ∧ aprx_eq P.y Q.y

instance (P Q : Point) : Decidable (P.eqTol Q) := by
  unfold Point.eqTol; infer_instance

/-- `PartialEq for Line` from `calc/basic.rs`: parallel and matching offsets. -/
def Line.eqTol (l k : Line) : Prop := is_parallel l k ∧ aprx_eq l.c k.c

instance (l k : Line) : Decidable (l.eqTol k) := by
  unfold Line.eqTol; infer_instance

/-- `PartialEq for Circle` from `calc/basic.rs`. -/
def Circle.eqTol (c d : Circle) : Prop := c.O.eqTol d.O ∧ aprx_eq c.r d.r

/-- `Point::distance_sq` (`impl Distance<Point> for Point`). -/
def Point.distance_sq (P Q : Point) : ℝ :=
  (P.x - Q.x) * (P.x - Q.x) + (P.y - Q.y) * (P.y - Q.y)

/-- `Point::distance`, via `distance_sq` as in the `Distance` trait. -/
def Point.distance (P Q : Point) : ℝ := Real.sqrt (P.distance_sq Q)

/-- `impl Distance<Line> for Point::distance_sq`. -/
def Point.line_distance_sq (P : Point) (l : Line) : ℝ :=
  (P.x * l.a + P.y * l.b + l.c) * (P.x * l.a + P.y * l.b + l.c)
    / (l.a * l.a + l.b * l.b)

/-- `impl Distance<Line> for Line::distance_sq`. -/
def Line.line_distance_sq (l k : Line) : ℝ :=
  if ¬ is_parallel l k then 0
  else (l.c - k.c) * (l.c - k.c) / (l.a * l.a + l.b * l.b)

/-- `impl TestThrough<Point> for Line::is_through`. -/
def Line.is_through (l : Line) (P : Point) : Prop :=
  aprx_eq (l.a * P.x + l.b * P.y + l.c) 0

instance (l : Line) (P : Point) : Decidable (l.is_through P) := by
  unfold Line.is_through; infer_instance

/-- `impl TestThrough<Point> for Circle::is_through`. -/
def Circle.is_through (c : Circle) (p : Point) : Prop :=
  aprx_eq (c.r * c.r) (c.O.distance_sq p)

instance (c : Circle) (p : Point) : Decidable (c.is_through p) := by
  unfold Circle.is_through; infer_instance

/-- The documented `Line` invariant: `a` and `b` not both zero. -/
def Line.invariant (l : Line) : Prop := ¬ (l.a = 0 ∧ l.b = 0)

/-- `Line::from_coeff` from `calc/basic.rs`. -/
def Line.from_coeff (a b c : ℝ) : Result Line :=
  if a = 0 ∧ b = 0 then .error .ZeroCoefficient
  else .ok ⟨a, b, c⟩

/-- `Line::from_slope_and_point` from `calc/basic.rs`. -/
def Line.from_slope_and_point (a b : ℝ) (P : Point) : Line :=
  ⟨a, b, -a * P.x - b * P.y⟩

/-- `Line::from_2p` from `calc/basic.rs`. -/
def Line.from_2p (A B : Point) : Result Line :=
  if A.eqTol B then .error .OverlappingPoint
  else .ok ⟨A.y - B.y, B.x - A.x, A.x * B.y - A.y * B.x⟩

/-- `Circle::from_center_radius` from `calc/basic.rs`. -/
def Circle.from_center_radius (O : Point) (R : ℝ) : Result Circle :=
  if R ≤ 0 then .error .NonpositiveRadius
  else .ok ⟨O, R⟩

/-- `Circle::from_center_point` from `calc/basic.rs`. -/
def Circle.from_center_point (O A : Point) : Result Circle :=
  if O.eqTol A then .error .OverlappingPoint
  else .ok ⟨O, O.distance A⟩

/-- `impl Intersect<Line> for Line::inter`: Cramer's rule on the 2x2 system. -/
def Line.inter (l k : Line) : Result Point :=
  if is_parallel l k then .error .NoIntersection
  else
    .ok ⟨(l.b * k.c - k.b * l.c) / (l.a * k.b - k.a * l.b),
         (l.c * k.a - k.c * l.a) / (l.a * k.b - k.a * l.b)⟩

/-- `impl Intersect<Circle> for Line::inter`: substitute the line into the
circle equation, solving for `y` when `a != 0` and for `x` otherwise. -/
def Line.inter_circle (l : Line) (c : Circle) : Result (Point × Point) :=
  if l.a ≠ 0 then
    let ya := l.a * l.a + l.b * l.b
    let yb := 2 * ((l.a * c.O.x + l.c) * l.b - l.a * l.a * c.O.y)
    let yc := l.a * l.a * (c.O.y * c.O.y - c.r * c.r)
      + (l.a * c.O.x + l.c) * (l.a * c.O.x + l.c)
    let disc := yb * yb - 4 * ya * yc
    if disc < 0 then .error .NoIntersection
    else
      let d := Real.sqrt disc
      let y1 := (-yb + d) / ya / 2
      let y2 := (-yb - d) / ya / 2
      .ok (⟨-(l.b * y1 + l.c) / l.a, y1⟩, ⟨-(l.b * y2 + l.c) / l.a, y2⟩)
  else
    let xa := l.b * l.b
    let xb := -2 * l.b * l.b * c.O.x
    let xc := l.b * l.b * (c.O.x * c.O.x - c.r * c.r)
      + (l.b * c.O.x + l.c) * (l.b * c.O.x + l.c)
    let disc := xb * xb - 4 * xa * xc
    if disc < 0 then .error .NoIntersection
    else
      let d := Real.sqrt disc
      let x1 := (-xb + d) / xa / 2
      let x2 := (-xb - d) / xa / 2
      .ok (⟨x1, -l.c / l.b⟩, ⟨x2, -l.c / l.b⟩)

/-- `impl Intersect<Circle> for Line::inter_common`: the Vieta fast path
recovering the second intersection point from a known common point. -/
def Line.inter_common_circle (l : Line) (c : Circle) (common : Point) :
    Result (Point × Point) :=
  if l.a ≠ 0 then
    let ya := l.a * l.a + l.b * l.b
    let yb := 2 * ((l.a * c.O.x + l.c) * l.b - l.a * l.a * c.O.y)
    let y2 := -yb / ya - common.y
    .ok (⟨-(l.b * y2 + l.c) / l.a, y2⟩, common)
  else
    let xa := l.b * l.b
    let xb := -2 * l.b * l.b * c.O.x
    let x2 := -xb / xa - common.x
    .ok (⟨x2, -l.c / l.b⟩, common)

/-- `midpoint` from `calc/construct.rs`. -/
def midpoint (A B : Point) : Point := (A + B) / (2 : ℝ)

/-- `center` from `calc/construct.rs`: fold the points, divide by the length. -/
def center (poly : List Point) : Point :=
  (poly.foldl (fun s p => s + p) ⟨0, 0⟩) / (poly.length : ℝ)

/-- `parallel` from `calc/construct.rs`. -/
def parallel (A : Point) (l : Line) : Line :=
  ⟨l.a, l.b, -(l.a * A.x + l.b * A.y)⟩

/-- `perp` from `calc/construct.rs`. -/
def perp (A : Point) (l : Line) : Line :=
  ⟨-l.b, l.a, l.b * A.x - l.a * A.y⟩

/-- `projection` from `calc/construct.rs`. -/
def projection (A : Point) (l : Line) : Point :=
  ⟨(l.b * l.b * A.x - l.a * l.c - l.a * l.b * A.y) / (l.a * l.a + l.b * l.b),
   (l.a * l.a * A.y - l.b * l.c - l.a * l.b * A.x) / (l.a * l.a + l.b * l.b)⟩

/-- `perp_bisect` from `calc/construct.rs`;
the `match` is the `?` operator on `Line::from_2p`. -/
def perp_bisect (A B : Point) : Result Line :=
  match Line.from_2p A B with
  | .error e => .error e
  | .ok l => .ok (perp (midpoint A B) l)

/-- `angle_bisect` from `calc/construct.rs`: normalize both coefficient
triples, then sum and difference. -/
def angle_bisect (l k : Line) : Line × Line :=
  let m := Real.sqrt (l.a * l.a + l.b * l.b)
  let n := Real.sqrt (k.a * k.a + k.b * k.b)
  (⟨l.a / m + k.a / n, l.b / m + k.b / n, l.c / m + k.c / n⟩,
   ⟨l.a / m - k.a / n, l.b / m - k.b / n, l.c / m - k.c / n⟩)

/-- `polar_line` from `calc/construct.rs`. -/
def polar_line (A : Point) (c : Circle) : Result Line :=
  Line.from_coeff (A.x - c.O.x) (A.y - c.O.y)
    (c.O.x * (c.O.x - A.x) + c.O.y * (c.O.y - A.y) - c.r * c.r)

/-- `tangent` from `calc/construct.rs`; `Circle::inter(Line)` delegates to
`Line::inter(Circle)`, and each `match` is a `?` operator. -/
def tangent (A : Point) (c : Circle) : Result (Line × Line) :=
  if c.is_through A then
    match Line.from_2p A c.O with
    | .error e => .error e
    | .ok l0 => .ok (perp A l0, perp A l0)
  else
    match polar_line A c with
    | .error e => .error e
    | .ok pl =>
      match pl.inter_circle c with
      | .error e => .error e
      | .ok (P, Q) =>
        match Line.from_2p A P with
        | .error e => .error e
        | .ok l1 =>
          match Line.from_2p A Q with
          | .error e => .error e
          | .ok l2 => .ok (l1, l2)

/-- `Circle::from_3p` from `calc/basic.rs`: chain two perpendicular
bisectors through `Line::inter`; the `match`es are the `?` operators. -/
def Circle.from_3p (A B C : Point) : Result Circle :=
  match perp_bisect A B with
  | .error e => .error e
  | .ok l1 =>
    match perp_bisect B C with
    | .error e => .error e
    | .ok l2 =>
      match l1.inter l2 with
      | .error e => .error e
      | .ok O => .ok ⟨O, O.distance A⟩

/-- `impl Rotate for Point` from `calc/transform.rs`. -/
def Point.rotate (P O : Point) (angle : ℝ) : Point :=
  let dx := P.x - O.x
  let dy := P.y - O.y
  let s := Real.sin angle
  let c := Real.cos angle
  ⟨dx * c - dy * s + O.x, dy * c + dx * s + O.y⟩

/-- `impl Rotate for Line` from `calc/transform.rs`. -/
def Line.rotate (l : Line) (O : Point) (angle : ℝ) : Line :=
  let s := Real.sin angle
  let c := Real.cos angle
  ⟨l.a * c - l.b * s, l.b * c + l.a * s, l.a * O.x + l.b * O.y + l.c⟩

/-- `impl Rotate for Circle` from `calc/transform.rs`. -/
def Circle.rotate (c : Circle) (O : Point) (angle : ℝ) : Circle :=
  ⟨c.O.rotate O angle, c.r⟩

/-- `impl Invert for Point::invert_in` from `calc/transform.rs`. -/
def Point.invert_in (P O : Point) (p : ℝ) : Result Point :=
  if P.eqTol O then .error .OverlappingPoint
  else
    let d := P - O
    let scale := p / P.distance_sq O
    .ok (O + d * scale)

/-- `from_barycentric` from `calc/trig/centers.rs`. -/
def from_barycentric (T : Point × Point × Point) (w : ℝ × ℝ × ℝ) :
    Result Point :=
  if w.1 + w.2.1 + w.2.2 = 0 then .error .ZeroCoefficient
  else .ok ((T.1 * w.1 + T.2.1 * w.2.1 + T.2.2 * w.2.2) / (w.1 + w.2.1 + w.2.2))

/-- `symmedian` from `calc/trig/centers.rs`. -/
def symmedian (T : Point × Point × Point) : Result Point :=
  let a2 := T.2.2.distance_sq T.2.1
  let b2 := T.2.1.distance_sq T.1
  let c2 := T.1.distance_sq T.2.2
  from_barycentric T (a2, b2, c2)

/-- The tolerance is positive. -/
theorem EPSILON_pos : 0 < EPSILON := by rw [EPSILON]; norm_num

/-- A sum of two squares is positive when the summands are not both zero. -/
theorem sum_sq_pos (a b : ℝ) (h : ¬(a = 0 ∧ b = 0)) : 0 < a * a + b * b := by
  rcases not_and_or.mp h with h | h
  · nlinarith [mul_self_pos.mpr h, mul_self_nonneg b]
  · nlinarith [mul_self_pos.mpr h, mul_self_nonneg a]

/-- A value not tolerance-equal to another is exactly different. -/
theorem ne_of_not_aprx_eq {a b : ℝ} (h : ¬ aprx_eq a b) : a - b ≠ 0 := by
  intro h0
  exact h (by rw [aprx_eq, h0, abs_zero]; exact EPSILON_pos)

/-- Two points that are not tolerance-equal have positive squared distance. -/
theorem distance_sq_pos_of_not_eqTol {P O : Point} (h : ¬ P.eqTol O) :
    0 < P.distance_sq O := by
  rw [Point.distance_sq]
  rcases not_and_or.mp h with h | h
  · nlinarith [mul_self_pos.mpr (ne_of_not_aprx_eq h),
      mul_self_nonneg (P.y - O.y)]
  · nlinarith [mul_self_pos.mpr (ne_of_not_aprx_eq h),
      mul_self_nonneg (P.x - O.x)]

/-! ## Claim C1: rotation round trip -/

/-- C1: evaluation of the code at the failing input. Rotating the line
`x = 0` around `O = (1, 0)` by `θ = 0` and then by `−0` yields the line
`x + 2 = 0`, which is not tolerance-equal to the original: the offset
term of `Line::rotate` adds `a·O.x + b·O.y` without subtracting the rotated
normal's contribution, so the round trip does not restore the line. -/
theorem C1_line_rotate_eval :
    Line.rotate (Line.rotate ⟨1, 0, 0⟩ ⟨1, 0⟩ 0) ⟨1, 0⟩ (-0) = ⟨1, 0, 2⟩ ∧
    ¬ (Line.rotate (Line.rotate ⟨1, 0, 0⟩ ⟨1, 0⟩ 0) ⟨1, 0⟩ (-0)).eqTol ⟨1, 0, 0⟩ := by
  have h1 : Line.rotate (Line.rotate ⟨1, 0, 0⟩ ⟨1, 0⟩ 0) ⟨1, 0⟩ (-0) = ⟨1, 0, 2⟩ := by
    simp only [Line.rotate, neg_zero, Real.sin_zero, Real.cos_zero]
    norm_num
  refine ⟨h1, ?_⟩
  rw [h1]
  simp only [Line.eqTol, is_parallel, aprx_eq, EPSILON, abs_lt]
  norm_num

/-! ## Claim C3: the symmedian point -/

/-- C3: evaluation of the code at the failing input. For the 3-4-5 right
triangle `A = (0,0)`, `B = (4,0)`, `C = (0,3)` (side lengths `a = |BC| = 5`,
`b = |CA| = 3`, `c = |AB| = 4`), `symmedian` returns `(32/25, 27/50)`,
the barycentric point of weights `(a², c², b²)`, whereas the point of
weights `(a², b², c²) = (25, 9, 16)` is `(18/25, 24/25)`; the two differ
(also under tolerance equality). The code swaps the weights of `B` and `C`:
it passes `|AB|²` for `B` and `|CA|²` for `C`. -/
theorem C3_symmedian_eval :
    symmedian (⟨0, 0⟩, ⟨4, 0⟩, ⟨0, 3⟩) = .ok ⟨32/25, 27/50⟩ ∧
    from_barycentric (⟨0, 0⟩, ⟨4, 0⟩, ⟨0, 3⟩) (25, 9, 16) = .ok ⟨18/25, 24/25⟩ ∧
    ¬ Point.eqTol ⟨32/25, 27/50⟩ ⟨18/25, 24/25⟩ := by
  refine ⟨?_, ?_, ?_⟩
  · simp only [symmedian, from_barycentric, Point.distance_sq,
      Point.mul_def, Point.add_def, Point.div_def]
    norm_num
  · simp only [from_barycentric, Point.mul_def, Point.add_def, Point.div_def]
    norm_num
  · simp only [Point.eqTol, aprx_eq, EPSILON, abs_lt]
    norm_num

/-! ## Claim C4: line-to-line distance -/

/-- C4: evaluation of the code at the failing input. The coefficient
triples `(1, 0, 1)` and `(2, 0, 2)` are proportional (scalar 2), hence
parallel, and denote the same geometric line `x + 1 = 0`; the point
`(−1, 0)` lies on the first and has point-to-line squared distance `0` to
the second, yet `Line::distance_sq` reports `1`, because it divides the
raw offset difference `(c₁ − c₂)²` by the first line's normal length
without normalizing the two triples. -/
theorem C4_line_distance_eval :
    is_parallel ⟨1, 0, 1⟩ ⟨2, 0, 2⟩ ∧
    Line.line_distance_sq ⟨1, 0, 1⟩ ⟨2, 0, 2⟩ = 1 ∧
    Line.is_through ⟨1, 0, 1⟩ ⟨-1, 0⟩ ∧
    Point.line_distance_sq ⟨-1, 0⟩ ⟨2, 0, 2⟩ = 0 := by
  have hp : is_parallel (⟨1, 0, 1⟩ : Line) ⟨2, 0, 2⟩ := by
    simp only [is_parallel, aprx_eq, EPSILON, abs_lt]
    norm_num
  refine ⟨hp, ?_, ?_, ?_⟩
  · rw [Line.line_distance_sq, if_neg (by simpa using hp)]
    norm_num
  · simp only [Line.is_through, aprx_eq, EPSILON, abs_lt]
    norm_num
  · simp only [Point.line_distance_sq]
    norm_num

/-! ## Claim C5: scalar multiples of a line's coefficients -/

/-- C5 counterexample: `(2, 0, 2)` is the scalar multiple of `(1, 0, 1)` by
`t = 2 ≠ 0`, yet the line equality predicate reports the two unequal,
because it compares the offset terms `1` and `2` directly. -/
theorem C5_counterexample :
    (2 : ℝ) ≠ 0 ∧ ¬ Line.eqTol ⟨1, 0, 1⟩ ⟨2 * 1, 2 * 0, 2 * 1⟩ := by
  refine ⟨by norm_num, ?_⟩
  simp only [Line.eqTol, is_parallel, aprx_eq, EPSILON, abs_lt]
  norm_num

/-- C5 amended: for a valid line `(a, b, c)` and nonzero scalar `t`, the
equality predicate reports `(a, b, c)` equal to `(t·a, t·b, t·c)` exactly
when the offset terms additionally agree within tolerance,
i.e. `|c − t·c| < EPSILON`; the parallelism half always holds. -/
theorem C5_scalar_multiple_eq (a b c t : ℝ) (_hv : ¬(a = 0 ∧ b = 0))
    (_ht : t ≠ 0) (hc : aprx_eq c (t * c)) :
    Line.eqTol ⟨a, b, c⟩ ⟨t * a, t * b, t * c⟩ := by
  refine ⟨?_, hc⟩
  simp only [is_parallel, aprx_eq]
  rw [show a * (t * b) - b * (t * a) = 0 by ring, abs_zero]
  rw [EPSILON]
  norm_num

/-- C5 witness: the amended theorem at `(a, b, c) = (1, 0, 0)`, `t = 2`. -/
theorem C5_scalar_multiple_eq_witness :
    ¬((1 : ℝ) = 0 ∧ (0 : ℝ) = 0) ∧ (2 : ℝ) ≠ 0 ∧ aprx_eq 0 (2 * 0) ∧
    Line.eqTol ⟨1, 0, 0⟩ ⟨2 * 1, 2 * 0, 2 * 0⟩ := by
  have hc : aprx_eq 0 (2 * 0) := by
    simp only [aprx_eq, EPSILON, abs_lt]; norm_num
  exact ⟨by norm_num, by norm_num, hc,
    C5_scalar_multiple_eq 1 0 0 2 (by norm_num) (by norm_num) hc⟩

/-! ## Claim C2: Circle::from_3p error behavior -/

/-- C2 counterexample: `A = (0, 0)` and `C = (5e-11, 0)` are equal within
tolerance, yet `Circle::from_3p(A, (10, 10), C)` succeeds rather than
failing with `OverlappingPoint`: the code only compares the pairs
`(A, B)` and `(B, C)`, and with `B = (10, 10)` far away the two
perpendicular bisectors fail the parallelism tolerance test. -/
theorem C2_counterexample :
    Point.eqTol ⟨0, 0⟩ ⟨5e-11, 0⟩ ∧
    (∃ c, Circle.from_3p ⟨0, 0⟩ ⟨10, 10⟩ ⟨5e-11, 0⟩ = .ok c) := by
  have hac : Point.eqTol ⟨0, 0⟩ ⟨5e-11, 0⟩ := by
    simp only [Point.eqTol, aprx_eq, EPSILON, abs_lt]
    norm_num
  have hab : ¬ Point.eqTol ⟨0, 0⟩ ⟨10, 10⟩ := by
    simp only [Point.eqTol, aprx_eq, EPSILON, abs_lt]
    norm_num
  have hbc : ¬ Point.eqTol ⟨10, 10⟩ ⟨5e-11, 0⟩ := by
    simp only [Point.eqTol, aprx_eq, EPSILON, abs_lt]
    norm_num
  have hpb1 : perp_bisect ⟨0, 0⟩ ⟨10, 10⟩ = .ok ⟨-10, -10, 100⟩ := by
    rw [perp_bisect, Line.from_2p, if_neg hab]
    simp only [perp, midpoint, Point.add_def, Point.div_def]
    norm_num
  have hpb2 : perp_bisect ⟨10, 10⟩ ⟨5e-11, 0⟩ =
      .ok ⟨10 - 5e-11, 10,
        (5e-11 - 10) * ((10 + 5e-11) / 2) - (10 - 0) * ((10 + 0) / 2)⟩ := by
    rw [perp_bisect, Line.from_2p, if_neg hbc]
    simp only [perp, midpoint, Point.add_def, Point.div_def]
    norm_num
  have hnp : ¬ is_parallel ⟨-10, -10, 100⟩
      ⟨10 - 5e-11, 10,
        (5e-11 - 10) * ((10 + 5e-11) / 2) - (10 - 0) * ((10 + 0) / 2)⟩ := by
    simp only [is_parallel, aprx_eq, EPSILON, abs_lt]
    norm_num
  refine ⟨hac, ?_⟩
  simp only [Circle.from_3p, hpb1, hpb2, Line.inter, if_neg hnp]
  exact ⟨_, rfl⟩

/-- C2 amended: `from_3p A B C` returns `OverlappingPoint` exactly when
`A ≈ B` or `B ≈ C` under tolerance (the pair `(A, C)` is never compared,
so it can succeed with `A ≈ C`); when neither compared pair overlaps, it
returns `NoIntersection` exactly when the collinearity determinant
`(A.x − B.x)(B.y − C.y) − (A.y − B.y)(B.x − C.x)` is within `EPSILON` of
zero — which holds in particular for exactly collinear points — and it
succeeds otherwise; `CollinearPoints` is never returned. -/
theorem C2_from_3p_characterization (A B C : Point) :
    (Circle.from_3p A B C = .error .OverlappingPoint ↔
      (A.eqTol B ∨ B.eqTol C)) ∧
    (Circle.from_3p A B C = .error .NoIntersection ↔
      (¬ A.eqTol B ∧ ¬ B.eqTol C ∧
        |(A.x - B.x) * (B.y - C.y) - (A.y - B.y) * (B.x - C.x)| < EPSILON)) ∧
    ((∃ c, Circle.from_3p A B C = .ok c) ↔
      (¬ A.eqTol B ∧ ¬ B.eqTol C ∧
        ¬ |(A.x - B.x) * (B.y - C.y) - (A.y - B.y) * (B.x - C.x)| < EPSILON)) := by
  by_cases hab : A.eqTol B
  · have h : Circle.from_3p A B C = .error .OverlappingPoint := by
      simp only [Circle.from_3p, perp_bisect, Line.from_2p, if_pos hab]
    rw [h]
    refine ⟨?_, ?_, ?_⟩ <;> simp [hab]
  · by_cases hbc : B.eqTol C
    · have h : Circle.from_3p A B C = .error .OverlappingPoint := by
        simp only [Circle.from_3p, perp_bisect, Line.from_2p, if_neg hab,
          if_pos hbc]
      rw [h]
      refine ⟨?_, ?_, ?_⟩ <;> simp [hab, hbc]
    · have hpb1 : perp_bisect A B =
          .ok (perp (midpoint A B)
            ⟨A.y - B.y, B.x - A.x, A.x * B.y - A.y * B.x⟩) := by
        rw [perp_bisect, Line.from_2p, if_neg hab]
      have hpb2 : perp_bisect B C =
          .ok (perp (midpoint B C)
            ⟨B.y - C.y, C.x - B.x, B.x * C.y - B.y * C.x⟩) := by
        rw [perp_bisect, Line.from_2p, if_neg hbc]
      set L1 := perp (midpoint A B) ⟨A.y - B.y, B.x - A.x, A.x * B.y - A.y * B.x⟩
        with hL1def
      set L2 := perp (midpoint B C) ⟨B.y - C.y, C.x - B.x, B.x * C.y - B.y * C.x⟩
        with hL2def
      have hdet : L1.a * L2.b - L1.b * L2.a =
          (A.x - B.x) * (B.y - C.y) - (A.y - B.y) * (B.x - C.x) := by
        rw [hL1def, hL2def]
        simp only [perp]
        ring
      have hpar_iff : is_parallel L1 L2 ↔
          |(A.x - B.x) * (B.y - C.y) - (A.y - B.y) * (B.x - C.x)| < EPSILON := by
        rw [is_parallel, aprx_eq, hdet]
      by_cases hpar : is_parallel L1 L2
      · have h : Circle.from_3p A B C = .error .NoIntersection := by
          simp only [Circle.from_3p, hpb1, hpb2, Line.inter, if_pos hpar]
        rw [h]
        refine ⟨?_, ?_, ?_⟩ <;> simp [hab, hbc, hpar_iff.mp hpar]
      · have hint : ∃ O, Line.inter L1 L2 = .ok O := by
          rw [Line.inter, if_neg hpar]
          exact ⟨_, rfl⟩
        obtain ⟨O, hO⟩ := hint
        have h : Circle.from_3p A B C = .ok ⟨O, O.distance A⟩ := by
          simp only [Circle.from_3p, hpb1, hpb2, hO]
        rw [h]
        have hnd : ¬ |(A.x - B.x) * (B.y - C.y) - (A.y - B.y) * (B.x - C.x)|
            < EPSILON := fun hc => hpar (hpar_iff.mpr hc)
        refine ⟨?_, ?_, ?_⟩ <;> simp [hab, hbc, hnd]

/-- C2 witness: the characterization applied to the concrete non-collinear
triple `(0,0)`, `(1,0)`, `(0,1)`, on which `from_3p` succeeds. -/
theorem C2_from_3p_characterization_witness :
    ∃ c, Circle.from_3p ⟨0, 0⟩ ⟨1, 0⟩ ⟨0, 1⟩ = .ok c := by
  refine (C2_from_3p_characterization ⟨0, 0⟩ ⟨1, 0⟩ ⟨0, 1⟩).2.2.mpr ⟨?_, ?_, ?_⟩
  · simp only [Point.eqTol, aprx_eq, EPSILON, abs_lt]
    norm_num
  · simp only [Point.eqTol, aprx_eq, EPSILON, abs_lt]
    norm_num
  · rw [EPSILON]
    norm_num

/-! ## Claim C6: the Line invariant under constructors -/

/-- C6 counterexample: `Line::from_slope_and_point(0, 0, (0,0))` succeeds
(the function is total) and returns the all-zero triple, which violates
the invariant that `a` and `b` are not both zero. -/
theorem C6_counterexample :
    Line.from_slope_and_point 0 0 ⟨0, 0⟩ = ⟨0, 0, 0⟩ ∧
    ¬ (Line.from_slope_and_point 0 0 ⟨0, 0⟩).invariant := by
  have h : Line.from_slope_and_point 0 0 ⟨0, 0⟩ = ⟨0, 0, 0⟩ := by
    rw [Line.from_slope_and_point]
    norm_num
  refine ⟨h, ?_⟩
  rw [h, Line.invariant]
  simp

/-- C6 amended: `from_slope_and_point a b P` satisfies the Line invariant
provided the given pair `(a, b)` is not itself the zero pair, and both
lines returned by `angle_bisect l k` satisfy it provided `l` and `k` are
valid and not exactly parallel (their coefficient cross product is
nonzero); with exactly parallel arguments, or a zero slope pair, the
returned triples can be all-zero. -/
theorem C6_invariant_amended :
    (∀ (a b : ℝ) (P : Point), ¬(a = 0 ∧ b = 0) →
      (Line.from_slope_and_point a b P).invariant) ∧
    (∀ l k : Line, l.invariant → k.invariant →
      l.a * k.b - l.b * k.a ≠ 0 →
      (angle_bisect l k).1.invariant ∧ (angle_bisect l k).2.invariant) := by
  constructor
  · intro a b P h
    rw [Line.from_slope_and_point, Line.invariant]
    exact h
  · intro l k hl hk hcross
    have hm : 0 < Real.sqrt (l.a * l.a + l.b * l.b) :=
      Real.sqrt_pos.mpr (sum_sq_pos _ _ hl)
    have hn : 0 < Real.sqrt (k.a * k.a + k.b * k.b) :=
      Real.sqrt_pos.mpr (sum_sq_pos _ _ hk)
    set m := Real.sqrt (l.a * l.a + l.b * l.b) with hmdef
    set n := Real.sqrt (k.a * k.a + k.b * k.b) with hndef
    have hm0 : m ≠ 0 := ne_of_gt hm
    have hn0 : n ≠ 0 := ne_of_gt hn
    constructor
    · rintro ⟨h1, h2⟩
      rw [angle_bisect] at h1 h2
      simp only [← hmdef, ← hndef] at h1 h2
      have e1 : l.a * n + k.a * m = 0 := by field_simp at h1; linarith
      have e2 : l.b * n + k.b * m = 0 := by field_simp at h2; linarith
      have : (l.a * k.b - l.b * k.a) * n = 0 := by
        linear_combination k.b * e1 - k.a * e2
      exact hcross (by
        rcases mul_eq_zero.mp this with h | h
        · exact h
        · exact absurd h hn0)
    · rintro ⟨h1, h2⟩
      rw [angle_bisect] at h1 h2
      simp only [← hmdef, ← hndef] at h1 h2
      have e1 : l.a * n - k.a * m = 0 := by field_simp at h1; linarith
      have e2 : l.b * n - k.b * m = 0 := by field_simp at h2; linarith
      have : (l.a * k.b - l.b * k.a) * n = 0 := by
        linear_combination k.b * e1 - k.a * e2
      exact hcross (by
        rcases mul_eq_zero.mp this with h | h
        · exact h
        · exact absurd h hn0)

/-- C6 witness: the amended theorem at `(a, b) = (1, 0)` for the slope
constructor and at the lines `x = 0`, `y = 0` for the bisectors. -/
theorem C6_invariant_amended_witness :
    ¬((1 : ℝ) = 0 ∧ (0 : ℝ) = 0) ∧
    (Line.from_slope_and_point 1 0 ⟨0, 0⟩).invariant ∧
    Line.invariant ⟨1, 0, 0⟩ ∧ Line.invariant ⟨0, 1, 0⟩ ∧
    ((1 : ℝ) * 1 - 0 * 0 ≠ 0) ∧
    (angle_bisect ⟨1, 0, 0⟩ ⟨0, 1, 0⟩).1.invariant ∧
    (angle_bisect ⟨1, 0, 0⟩ ⟨0, 1, 0⟩).2.invariant := by
  have hinv1 : Line.invariant ⟨1, 0, 0⟩ := by rw [Line.invariant]; norm_num
  have hinv2 : Line.invariant ⟨0, 1, 0⟩ := by rw [Line.invariant]; norm_num
  obtain ⟨hb1, hb2⟩ :=
    C6_invariant_amended.2 ⟨1, 0, 0⟩ ⟨0, 1, 0⟩ hinv1 hinv2 (by norm_num)
  exact ⟨by norm_num, C6_invariant_amended.1 1 0 ⟨0, 0⟩ (by norm_num),
    hinv1, hinv2, by norm_num, hb1, hb2⟩

/-! ## Claim C8: circular inversion of points -/

/-- C8 counterexample: with `P = (1, 0)`, `O = (0, 0)` and power
`p = 1e-11 ≠ 0`, the point `P` is not tolerance-equal to `O`, the
inversion succeeds with image `(1e-11, 0)` — but that image *is*
tolerance-equal to `O` (its distance from `O` is below `EPSILON`), and
inverting it again returns the `OverlappingPoint` error instead of `P`. -/
theorem C8_counterexample :
    ¬ Point.eqTol ⟨1, 0⟩ ⟨0, 0⟩ ∧ (1e-11 : ℝ) ≠ 0 ∧
    Point.invert_in ⟨1, 0⟩ ⟨0, 0⟩ 1e-11 = .ok ⟨1e-11, 0⟩ ∧
    Point.eqTol ⟨1e-11, 0⟩ ⟨0, 0⟩ ∧
    Point.invert_in ⟨1e-11, 0⟩ ⟨0, 0⟩ 1e-11 = .error .OverlappingPoint := by
  have h1 : ¬ Point.eqTol ⟨1, 0⟩ ⟨0, 0⟩ := by
    simp only [Point.eqTol, aprx_eq, EPSILON, abs_lt]
    norm_num
  have h2 : Point.eqTol ⟨1e-11, 0⟩ ⟨0, 0⟩ := by
    simp only [Point.eqTol, aprx_eq, EPSILON, abs_lt]
    norm_num
  refine ⟨h1, by norm_num, ?_, h2, ?_⟩
  · rw [Point.invert_in, if_neg h1]
    simp only [Point.sub_def, Point.add_def, Point.mul_def, Point.distance_sq]
    norm_num
  · rw [Point.invert_in, if_pos h2]

/-- C8 amended: for `P` not tolerance-equal to `O` and exact power
`p ≠ 0`, the inversion succeeds; and provided its image is itself not
tolerance-equal to `O`, inverting the image with the same center and
power returns exactly `P`. -/
theorem C8_invert_involution (P O : Point) (p : ℝ) (h1 : ¬ P.eqTol O)
    (hp : p ≠ 0) :
    ∃ Q, P.invert_in O p = .ok Q ∧
      (¬ Q.eqTol O → Q.invert_in O p = .ok P) := by
  have hd2 : 0 < P.distance_sq O := distance_sq_pos_of_not_eqTol h1
  have hd2' : P.distance_sq O ≠ 0 := ne_of_gt hd2
  refine ⟨_, by rw [Point.invert_in, if_neg h1], ?_⟩
  intro hQ
  rw [Point.invert_in, if_neg hQ]
  have hQd : (O + (P - O) * (p / P.distance_sq O)).distance_sq O
      = (p / P.distance_sq O) * (p / P.distance_sq O) * P.distance_sq O := by
    simp only [Point.add_def, Point.sub_def, Point.mul_def, Point.distance_sq]
    ring
  rw [hQd]
  have hfrac :
      p / ((p / P.distance_sq O) * (p / P.distance_sq O) * P.distance_sq O)
      = P.distance_sq O / p := by
    field_simp
    ring
  rw [hfrac]
  simp only [Point.add_def, Point.sub_def, Point.mul_def]
  obtain ⟨px, py⟩ := P
  obtain ⟨ox, oy⟩ := O
  simp only [Point.distance_sq] at hd2' ⊢
  rw [Except.ok.injEq, Point.mk.injEq]
  constructor
  · field_simp
    ring
  · field_simp
    ring

/-- C8 witness: the amended theorem at `P = (2, 0)`, `O = (0, 0)`,
`p = 1`. -/
theorem C8_invert_involution_witness :
    ¬ Point.eqTol ⟨2, 0⟩ ⟨0, 0⟩ ∧ (1 : ℝ) ≠ 0 ∧
    (∃ Q, Point.invert_in ⟨2, 0⟩ ⟨0, 0⟩ 1 = .ok Q ∧
      (¬ Q.eqTol ⟨0, 0⟩ → Q.invert_in ⟨0, 0⟩ 1 = .ok ⟨2, 0⟩)) := by
  have h1 : ¬ Point.eqTol ⟨2, 0⟩ ⟨0, 0⟩ := by
    simp only [Point.eqTol, aprx_eq, EPSILON, abs_lt]
    norm_num
  exact ⟨h1, by norm_num,
    C8_invert_involution ⟨2, 0⟩ ⟨0, 0⟩ 1 h1 (by norm_num)⟩

/-! ## Claim C10: tangent lines from the circle's own center -/

/-- C10: for any circle whose squared radius is at least `EPSILON` (so the
center does not pass the `is_through` tolerance test), `tangent` called
with the circle's own center takes the polar-line branch; the polar line
of the center has both direction coefficients exactly zero, so
`Line::from_coeff` rejects it and the `ZeroCoefficient` error propagates
out of `tangent`. -/
theorem C10_tangent_at_center (c : Circle) (h : EPSILON ≤ c.r * c.r) :
    tangent c.O c = .error .ZeroCoefficient := by
  have hnt : ¬ c.is_through c.O := by
    rw [Circle.is_through, aprx_eq, Point.distance_sq]
    simp only [sub_self, mul_zero, zero_mul, add_zero, sub_zero]
    rw [abs_of_nonneg (mul_self_nonneg c.r)]
    exact not_lt.mpr h
  rw [tangent, if_neg hnt, polar_line]
  rw [Line.from_coeff, if_pos ⟨sub_self _, sub_self _⟩]

/-- C10 witness: the unit circle at the origin. -/
theorem C10_tangent_at_center_witness :
    EPSILON ≤ (1 : ℝ) * 1 ∧
    tangent ⟨0, 0⟩ ⟨⟨0, 0⟩, 1⟩ = .error .ZeroCoefficient := by
  have h : EPSILON ≤ (1 : ℝ) * 1 := by rw [EPSILON]; norm_num
  exact ⟨h, C10_tangent_at_center ⟨⟨0, 0⟩, 1⟩ h⟩

/-! ## Claim C7: the Vieta fast path of line-circle intersection -/

/-- C7: if `inter(l, c)` succeeds with the two intersection points
`(p1, p2)` and `P` is one of them, then `inter_common(l, c, P)` succeeds
and returns the same unordered pair: the other point in the first slot
(recovered exactly via the Vieta sum of roots, with no square root) and
the given common point in the second slot. -/
theorem C7_inter_common_recovers (l : Line) (c : Circle) (p1 p2 P : Point)
    (hinv : l.invariant)
    (h : l.inter_circle c = .ok (p1, p2)) :
    (P = p1 → l.inter_common_circle c P = .ok (p2, P)) ∧
    (P = p2 → l.inter_common_circle c P = .ok (p1, P)) := by
  rw [Line.inter_circle] at h
  rw [Line.inter_common_circle]
  by_cases ha : l.a = 0
  · have hb : l.b ≠ 0 := fun hb => hinv ⟨ha, hb⟩
    have hxa : l.b * l.b ≠ 0 := mul_ne_zero hb hb
    rw [if_neg (not_not_intro ha)] at h
    rw [if_neg (not_not_intro ha)]
    simp only [] at h
    split at h
    · simp at h
    · rw [Except.ok.injEq, Prod.mk.injEq] at h
      obtain ⟨h1, h2⟩ := h
      constructor
      · intro hP
        rw [hP, ← h1, ← h2]
        simp only []
        rw [Except.ok.injEq, Prod.mk.injEq]
        refine ⟨?_, rfl⟩
        rw [Point.mk.injEq]
        refine ⟨?_, rfl⟩
        field_simp
        ring
      · intro hP
        rw [hP, ← h1, ← h2]
        simp only []
        rw [Except.ok.injEq, Prod.mk.injEq]
        refine ⟨?_, rfl⟩
        rw [Point.mk.injEq]
        refine ⟨?_, rfl⟩
        field_simp
        ring
  · have hya : l.a * l.a + l.b * l.b ≠ 0 :=
      ne_of_gt (sum_sq_pos l.a l.b (fun hz => ha hz.1))
    rw [if_pos ha] at h
    rw [if_pos ha]
    simp only [] at h
    split at h
    · simp at h
    · rw [Except.ok.injEq, Prod.mk.injEq] at h
      obtain ⟨h1, h2⟩ := h
      constructor
      · intro hP
        rw [hP, ← h1, ← h2]
        simp only []
        rw [Except.ok.injEq, Prod.mk.injEq]
        refine ⟨?_, rfl⟩
        have hy : -(2 * ((l.a * c.O.x + l.c) * l.b - l.a * l.a * c.O.y))
              / (l.a * l.a + l.b * l.b)
              - (-(2 * ((l.a * c.O.x + l.c) * l.b - l.a * l.a * c.O.y))
                + Real.sqrt
                  (2 * ((l.a * c.O.x + l.c) * l.b - l.a * l.a * c.O.y)
                      * (2 * ((l.a * c.O.x + l.c) * l.b - l.a * l.a * c.O.y))
                    - 4 * (l.a * l.a + l.b * l.b)
                      * (l.a * l.a * (c.O.y * c.O.y - c.r * c.r)
                        + (l.a * c.O.x + l.c) * (l.a * c.O.x + l.c))))
                / (l.a * l.a + l.b * l.b) / 2
            = (-(2 * ((l.a * c.O.x + l.c) * l.b - l.a * l.a * c.O.y))
                - Real.sqrt
                  (2 * ((l.a * c.O.x + l.c) * l.b - l.a * l.a * c.O.y)
                      * (2 * ((l.a * c.O.x + l.c) * l.b - l.a * l.a * c.O.y))
                    - 4 * (l.a * l.a + l.b * l.b)
                      * (l.a * l.a * (c.O.y * c.O.y - c.r * c.r)
                        + (l.a * c.O.x + l.c) * (l.a * c.O.x + l.c))))
                / (l.a * l.a + l.b * l.b) / 2 := by
          field_simp
          ring
        rw [Point.mk.injEq]
        refine ⟨?_, ?_⟩
        · rw [hy]
        · exact hy
      · intro hP
        rw [hP, ← h1, ← h2]
        simp only []
        rw [Except.ok.injEq, Prod.mk.injEq]
        refine ⟨?_, rfl⟩
        have hy : -(2 * ((l.a * c.O.x + l.c) * l.b - l.a * l.a * c.O.y))
              / (l.a * l.a + l.b * l.b)
              - (-(2 * ((l.a * c.O.x + l.c) * l.b - l.a * l.a * c.O.y))
                - Real.sqrt
                  (2 * ((l.a * c.O.x + l.c) * l.b - l.a * l.a * c.O.y)
                      * (2 * ((l.a * c.O.x + l.c) * l.b - l.a * l.a * c.O.y))
                    - 4 * (l.a * l.a + l.b * l.b)
                      * (l.a * l.a * (c.O.y * c.O.y - c.r * c.r)
                        + (l.a * c.O.x + l.c) * (l.a * c.O.x + l.c))))
                / (l.a * l.a + l.b * l.b) / 2
            = (-(2 * ((l.a * c.O.x + l.c) * l.b - l.a * l.a * c.O.y))
                + Real.sqrt
                  (2 * ((l.a * c.O.x + l.c) * l.b - l.a * l.a * c.O.y)
                      * (2 * ((l.a * c.O.x + l.c) * l.b - l.a * l.a * c.O.y))
                    - 4 * (l.a * l.a + l.b * l.b)
                      * (l.a * l.a * (c.O.y * c.O.y - c.r * c.r)
                        + (l.a * c.O.x + l.c) * (l.a * c.O.x + l.c))))
                / (l.a * l.a + l.b * l.b) / 2 := by
          field_simp
          ring
        rw [Point.mk.injEq]
        refine ⟨?_, ?_⟩
        · rw [hy]
        · exact hy

/-- C7 witness: the horizontal line `y = 3` meets the circle of radius 5
about the origin in `(4, 3)` and `(−4, 3)`; giving `(4, 3)` as the common
point, the fast path returns `((−4, 3), (4, 3))`. -/
theorem C7_inter_common_recovers_witness :
    Line.invariant ⟨0, 1, -3⟩ ∧
    Line.inter_circle ⟨0, 1, -3⟩ ⟨⟨0, 0⟩, 5⟩ = .ok (⟨4, 3⟩, ⟨-4, 3⟩) ∧
    Line.inter_common_circle ⟨0, 1, -3⟩ ⟨⟨0, 0⟩, 5⟩ ⟨4, 3⟩ =
      .ok (⟨-4, 3⟩, ⟨4, 3⟩) := by
  have hinv : Line.invariant ⟨0, 1, -3⟩ := by
    rw [Line.invariant]
    norm_num
  have h64 : Real.sqrt 64 = 8 := by
    rw [show (64 : ℝ) = 8 ^ 2 by norm_num]
    exact Real.sqrt_sq (by norm_num)
  have hinter : Line.inter_circle ⟨0, 1, -3⟩ ⟨⟨0, 0⟩, 5⟩ =
      .ok (⟨4, 3⟩, ⟨-4, 3⟩) := by
    norm_num [Line.inter_circle, h64]
  exact ⟨hinv, hinter,
    (C7_inter_common_recovers ⟨0, 1, -3⟩ ⟨⟨0, 0⟩, 5⟩ ⟨4, 3⟩ ⟨-4, 3⟩ ⟨4, 3⟩
      hinv hinter).1 rfl⟩

/-! ## Claim C9: centroid of a point sequence -/

/-- C9: evaluation of the code at the failing input. On the empty sequence
`center` folds to the zero vector and then divides each coordinate by the
length `0`: the result is literally the quotient `0 / 0` (`0.0 / 0.0 = NaN`
in `f64`), not a checked error. -/
theorem C9_center_empty_divzero :
    center ([] : List Point) = ⟨(0 : ℝ) / (0 : ℝ), (0 : ℝ) / (0 : ℝ)⟩ ∧
    ((([] : List Point).length : ℝ)) = 0 := by
  constructor
  · simp [center, Point.div_def]
  · simp

end

end MetricRs
